import Mathlib

/-!
Shallow embedding of `src/app.py` (Japanese speech-coaching tool, v6.6) and
verification of its specification claims.

Modelling conventions:
* Python strings are `List Char` (`Str` below); byte strings are `List Nat`.
* Python floats (word confidences, start times) are modelled as rationals `ℚ`;
  the literal `0.8` of the source is `mkRat 4 5`.
* The three `re.search` calls of `parse_summary` are modelled by specialised
  scanners that implement the leftmost, lazy-quantifier semantics of the
  patterns actually used (`スコア.*?:.*?(\d{1,3})` and the two
  `<label>.*?:.*?([SABC])` searches with `re.IGNORECASE`): a match starts at
  the leftmost occurrence of the literal label from which a colon and then a
  Unicode decimal digit (resp. rating letter) can be reached without crossing
  a newline (`.` does not match `'\n'`); the captured group takes greedily up
  to three such digits (resp. exactly one rating letter) — `\d` is the full
  Unicode Nd category, not just ASCII.  Case-insensitivity is modelled on the
  ASCII letters `S A B C`.
* External effects (cloud calls, the ffmpeg process, Streamlit widgets) are
  modelled as environment records and event flags: `AnalyzeEnv` fixes the
  outcome of credential loading, the transcoder exit status and the
  recognition call; `PipelineOut` records which UI / service actions the
  "Start Analysis" handler performs.  `tmpExists` tracks whether the
  temporary converted audio file (created by `NamedTemporaryFile` with
  `delete=False` before ffmpeg runs) still exists when `analyze_audio`
  returns; `Except.error ()` marks an uncaught Python exception.
-/

set_option linter.unusedVariables false

namespace SpeechApp

/-- Python strings are modelled as lists of characters. -/
abbrev Str := List Char

/-! ## String utilities (Python `str.replace`, `str.find`, `str.strip`) -/

/-- One fuel-indexed pass of Python `str.replace`: scan left to right and
replace each non-overlapping occurrence of `pat` by `rep`.  The fuel is the
length of the scanned string, so it never runs out on the intended calls. -/
def replaceStrAux (pat rep : Str) : Nat → Str → Str
  | 0, s => s
  | fuel + 1, [] => []
  | fuel + 1, c :: rest =>
    if !pat.isEmpty && pat.isPrefixOf (c :: rest) then
      rep ++ replaceStrAux pat rep fuel (List.drop pat.length (c :: rest))
    else
      c :: replaceStrAux pat rep fuel rest

/-- Python `s.replace(pat, rep)` for a non-empty pattern. -/
def replaceStr (pat rep s : Str) : Str :=
  replaceStrAux pat rep s.length s

/-- Python `s.find(pat)` for a non-empty pattern: index of the leftmost
occurrence, `none` when absent (Python returns `-1`). -/
def findIdx (pat : Str) : Str → Option Nat
  | [] => none
  | c :: rest =>
    if pat.isPrefixOf (c :: rest) then some 0
    else (findIdx pat rest).map (· + 1)

/-- Characters stripped by Python `str.strip()` (the ASCII whitespace set;
the summary texts involved contain no exotic Unicode spaces). -/
def isPySpace (c : Char) : Bool :=
  c = ' ' || c = '\t' || c = '\n' || c = '\r' || c = '\x0b' || c = '\x0c'

/-- Python `str.strip()`. -/
def pyStrip (s : Str) : Str :=
  ((s.dropWhile isPySpace).reverse.dropWhile isPySpace).reverse

/-! ## The regex searches of `parse_summary` (src/app.py lines 249-255) -/

/-- Scan for the `.*?:` part of the score/rating patterns: the first `':'`
reachable without crossing a newline (Python `.` does not match `'\n'`);
returns the remainder after the colon. -/
def findColon : Str → Option Str
  | [] => none
  | c :: rest =>
    if c = ':' then some rest
    else if c = '\n' then none
    else findColon rest

/-- The codepoint ranges of the Unicode decimal-digit category Nd
(Unicode 15.0): this is the character set the `\d` class of the `re` module
matches in its default Unicode mode, covering the ASCII digits, the
full-width digits `０`-`９` and the decimal digits of the other scripts. -/
def ndRanges : List (Nat × Nat) :=
  [(0x30, 0x39), (0x660, 0x669), (0x6F0, 0x6F9), (0x7C0, 0x7C9),
   (0x966, 0x96F), (0x9E6, 0x9EF), (0xA66, 0xA6F), (0xAE6, 0xAEF),
   (0xB66, 0xB6F), (0xBE6, 0xBEF), (0xC66, 0xC6F), (0xCE6, 0xCEF),
   (0xD66, 0xD6F), (0xDE6, 0xDEF), (0xE50, 0xE59), (0xED0, 0xED9),
   (0xF20, 0xF29), (0x1040, 0x1049), (0x1090, 0x1099), (0x17E0, 0x17E9),
   (0x1810, 0x1819), (0x1946, 0x194F), (0x19D0, 0x19D9), (0x1A80, 0x1A89),
   (0x1A90, 0x1A99), (0x1B50, 0x1B59), (0x1BB0, 0x1BB9), (0x1C40, 0x1C49),
   (0x1C50, 0x1C59), (0xA620, 0xA629), (0xA8D0, 0xA8D9), (0xA900, 0xA909),
   (0xA9D0, 0xA9D9), (0xA9F0, 0xA9F9), (0xAA50, 0xAA59), (0xABF0, 0xABF9),
   (0xFF10, 0xFF19), (0x104A0, 0x104A9), (0x10D30, 0x10D39),
   (0x11066, 0x1106F), (0x110F0, 0x110F9), (0x11136, 0x1113F),
   (0x111D0, 0x111D9), (0x112F0, 0x112F9), (0x11450, 0x11459),
   (0x114D0, 0x114D9), (0x11650, 0x11659), (0x116C0, 0x116C9),
   (0x11730, 0x11739), (0x118E0, 0x118E9), (0x11950, 0x11959),
   (0x11C50, 0x11C59), (0x11D50, 0x11D59), (0x11DA0, 0x11DA9),
   (0x11F50, 0x11F59), (0x16A60, 0x16A69), (0x16AC0, 0x16AC9),
   (0x16B50, 0x16B59), (0x1D7CE, 0x1D7FF), (0x1E140, 0x1E149),
   (0x1E2F0, 0x1E2F9), (0x1E4F0, 0x1E4F9), (0x1E950, 0x1E959),
   (0x1FBF0, 0x1FBF9)]

/-- The regex class `\d` of the `re` module: any Unicode decimal digit
(category Nd), not just the ASCII digits. -/
def pyIsDigit (c : Char) : Bool :=
  ndRanges.any fun r => r.1 ≤ c.toNat && c.toNat ≤ r.2

/-- Scan for the `.*?(\d...)` part: the suffix starting at the first Unicode
decimal digit reachable without crossing a newline. -/
def findDigitStart : Str → Option Str
  | [] => none
  | c :: rest =>
    if pyIsDigit c then some (c :: rest)
    else if c = '\n' then none
    else findDigitStart rest

/-- Model of the call `re.search` with pattern label-`.*?:.*?(\d{1,3})`, returning the captured
digit group: the leftmost occurrence of `label` from which a colon and then a
digit are reachable on the same line; the group takes greedily up to three
digits. -/
def searchScore (label : Str) : Str → Option Str
  | [] => none
  | c :: rest =>
    if label.isPrefixOf (c :: rest) then
      match findColon (List.drop label.length (c :: rest)) with
      | some afterColon =>
        match findDigitStart afterColon with
        | some ds => some (List.take 3 (List.takeWhile pyIsDigit ds))
        | none => searchScore label rest
      | none => searchScore label rest
    else searchScore label rest

/-- The character class `[SABC]` under `re.IGNORECASE`. -/
def isRatingChar (c : Char) : Bool :=
  c = 'S' || c = 'A' || c = 'B' || c = 'C' ||
  c = 's' || c = 'a' || c = 'b' || c = 'c'

/-- Scan for the `.*?([SABC])` part: the first rating letter reachable
without crossing a newline. -/
def findRatingStart : Str → Option Char
  | [] => none
  | c :: rest =>
    if isRatingChar c then some c
    else if c = '\n' then none
    else findRatingStart rest

/-- Model of the call `re.search` with pattern label-`.*?:.*?([SABC])` under `re.IGNORECASE`, returning the
captured letter. -/
def searchRating (label : Str) : Str → Option Char
  | [] => none
  | c :: rest =>
    if label.isPrefixOf (c :: rest) then
      match findColon (List.drop label.length (c :: rest)) with
      | some afterColon =>
        match findRatingStart afterColon with
        | some r => some r
        | none => searchRating label rest
      | none => searchRating label rest
    else searchRating label rest

/-! ## `parse_summary` (src/app.py lines 238-274) -/

/-- The dict returned by `parse_summary`. -/
structure Summary where
  score : Str
  clarity : Str
  naturalness : Str
  summary_text : Str
deriving DecidableEq

/-- The normalisation at the top of `parse_summary`: delete `**`, replace the
full-width colon `：` by `:`, delete ASCII spaces. -/
def cleanText (report_text : Str) : Str :=
  replaceStr " ".toList [] (replaceStr "：".toList ":".toList (replaceStr "**".toList [] report_text))

/-- The summary-block slice of `parse_summary` (lines 258-267): text from the
`【総合評価サマリー】` header (preferring the `### `-prefixed form) up to the
next `---`, stripped; sentinel `サマリー抽出失敗` when either marker is
missing. -/
def summaryBlock (report_text : Str) : Str :=
  let start :=
    match findIdx "### 【総合評価サマリー】".toList report_text with
    | some i => some i
    | none => findIdx "【総合評価サマリー】".toList report_text
  match start with
  | none => "サマリー抽出失敗".toList
  | some s =>
    match findIdx "---".toList (report_text.drop s) with
    | none => "サマリー抽出失敗".toList
    | some offset => pyStrip (List.take offset (report_text.drop s))

/-- Model of `parse_summary(report_text)`. -/
def parse_summary (report_text : Str) : Summary :=
  let clean_text := cleanText report_text
  { score :=
      match searchScore "スコア".toList clean_text with
      | some ds => ds
      | none => "0".toList
    clarity :=
      match searchRating "明瞭度".toList clean_text with
      | some c => [c.toUpper]
      | none => "-".toList
    naturalness :=
      match searchRating "日本語らしさ".toList clean_text with
      | some c => [c.toUpper]
      | none => "-".toList
    summary_text := summaryBlock report_text }

/-! ## `ask_gemini` (src/app.py lines 175-235) -/

/-- Outcome of one `genai.GenerativeModel(m).generate_content(prompt)` call:
either the response text or the `str` of the raised exception. -/
inductive GenOutcome where
  | ok (text : Str)
  | err (msg : Str)
deriving DecidableEq

/-- The fixed fallback list `target_models`. -/
def target_models : List Str :=
  ["gemini-2.0-flash".toList, "gemini-2.0-flash-lite".toList,
   "gemini-1.5-flash".toList, "gemini-pro".toList]

/-- The string returned when every candidate model failed
(`f"❌ Gemini生成エラー（全モデルで失敗）: {last_error}"`). -/
def genFailMsg (last_error : Option Str) : Str :=
  "❌ Gemini生成エラー（全モデルで失敗）: ".toList ++
    (match last_error with
     | some e => e
     | none => "None".toList)

/-- The `for model_name in target_models` loop of `ask_gemini`: return the
first successful response text, remember the latest exception, and fall
through to the formatted error string when the list is exhausted. -/
def genLoop (attempt : Str → Str → GenOutcome) (prompt : Str) :
    List Str → Option Str → Str
  | [], last_error => genFailMsg last_error
  | m :: rest, last_error =>
    match attempt m prompt with
    | .ok t => t
    | .err e => genLoop attempt prompt rest (some e)

/-- The f-string prompt of `ask_gemini` (lines 188-223). -/
def build_prompt (student_name nationality text details : Str) : Str :=
  let name_part :=
    if student_name ≠ [] then
      "学習者名は「".toList ++ student_name ++ "」です。".toList
    else "学習者名は不明です。".toList
  let nat_instruction :=
    if nationality ≠ [] then
      "学習者の母語・国籍は「".toList ++ nationality ++ "」です。".toList
    else "母語情報は不明です。".toList
  "\nあなたは日本語音声学・対照言語学・日本語教育の専門家です。\n以下のデータに基づき、音声評価レポートを作成してください。\n\n【基本情報】\n".toList ++
  name_part ++ "\n".toList ++ nat_instruction ++
  "\n\n【分析データ】\n認識結果: ".toList ++ text ++
  "\n詳細スコア: ".toList ++ details ++
  "\n\n【重要指示】\n- 信頼度が低い箇所（⚠️マーク）を発音ミスとして分析してください。\n- 母語の音韻体系との対照分析を実施してください。\n- **「要重点指導音」には、音声記号（IPA）と、それに対応する日本語（ひらがな・カタカナ・漢字など）を必ず併記してください。**\n  - 良い例: /tsɯ/ (つ), /ɕ/ (し), /ɾ/ (ら行), 長音 (ー)\n  - 悪い例: /tsɯ/, /ɕ/ (記号のみはNG)\n\n【出力形式（厳守）】\nレポートの冒頭に以下のサマリーを必ず含めてください。\n**注意：自動抽出のため、項目の形式を変えないでください。**\n\n### 【総合評価サマリー】\n* **総合音声スコア**： [0~100の数値]\n* **明瞭度**： [S/A/B/C]\n* **日本語らしさ**： [S/A/B/C]\n* **要重点指導音**： [音声記号とひらがなを併記]\n\n---\n\nその後、詳細分析を記述してください。\n".toList

/-- Model of `ask_gemini(student_name, nationality, text, alts, details)`, parametrised
by the outcome `attempt model prompt` of each generation call.  `alts` is
accepted but, as in the source, never interpolated into the prompt. -/
def ask_gemini (attempt : Str → Str → GenOutcome)
    (student_name nationality text alts details : Str) : Str :=
  genLoop attempt (build_prompt student_name nationality text details)
    target_models none

/-! ## Number formatting (Python `str(int)`, `f"{x:.1f}"`) -/

/-- Decimal digits of a natural number, most significant first, accumulated
onto `acc`; fuel-indexed (fuel `n + 1` always suffices). -/
def natStrAux : Nat → Nat → Str → Str
  | 0, _, acc => acc
  | fuel + 1, n, acc =>
    if n < 10 then Nat.digitChar n :: acc
    else natStrAux fuel (n / 10) (Nat.digitChar (n % 10) :: acc)

/-- Python `str(n)` for a natural number. -/
def natStr (n : Nat) : Str :=
  natStrAux (n + 1) n []

/-- Python `str(i)` for an integer. -/
def intStr (i : Int) : Str :=
  if i < 0 then '-' :: natStr i.natAbs else natStr i.natAbs

/-- Python `int(x)` on a rational: truncation toward zero
(`num tdiv den`, with `den > 0`). -/
def pyTrunc (q : ℚ) : Int :=
  Int.tdiv q.num q.den

/-- Floor of a rational (`num fdiv den`, with `den > 0`). -/
def ratFloor (q : ℚ) : Int :=
  Int.fdiv q.num q.den

/-- Model of the f-string `f"{x:.1f}"` on a rational: round `x * 10` to an
integer (half-up; the source formats a nonnegative float total-seconds value
and no claim depends on tie behaviour) and print `whole.tenths`. -/
def fmtFixed1 (q : ℚ) : Str :=
  let t : Int := ratFloor (q * 10 + mkRat 1 2)
  if t < 0 then
    '-' :: (natStr ((-t).toNat / 10) ++ '.' :: natStr ((-t).toNat % 10))
  else
    natStr (t.toNat / 10) ++ '.' :: natStr (t.toNat % 10)

/-! ## `analyze_audio` (src/app.py lines 95-172) -/

/-- One word of the recognition response: text, confidence (a float, modelled
as ℚ) and start-time offset in seconds. -/
structure Word where
  word : Str
  conf : ℚ
  start : ℚ
deriving DecidableEq

/-- One alternative of a result segment: transcript plus word list. -/
structure SpeechAlt where
  transcript : Str
  words : List Word
deriving DecidableEq

/-- One segment of `response.results`. -/
structure RecogResult where
  alternatives : List SpeechAlt
deriving DecidableEq

/-- The per-word detail entry `f"{w.word}({score}){time_str}{marker}"`
(lines 154-159): `score = int(w.confidence * 100)`,
`time_str = f"[{start_seconds:.1f}s]"`, and the marker `" ⚠️"` exactly when
`w.confidence < 0.8` (the threshold `0.8` is `mkRat 4 5`). -/
def wordDetail (w : Word) : Str :=
  w.word ++ '(' :: (intStr (pyTrunc (w.conf * 100)) ++ ')' ::
    '[' :: (fmtFixed1 w.start ++ 's' :: ']' ::
      (if w.conf < mkRat 4 5 then " ⚠️".toList else [])))

/-- The result-formatting loop (lines 149-164): concatenate the transcript of
the top alternative of every segment, collect one detail entry and one
word-data record per word.  `result.alternatives[0]` on an empty alternative
list raises `IndexError`, modelled as `Except.error ()`. -/
def assembleResults :
    List RecogResult → Except Unit (Str × List Str × List Word)
  | [] => Except.ok ([], [], [])
  | r :: rest =>
    match r.alternatives with
    | [] => Except.error ()
    | alt :: _ =>
      match assembleResults rest with
      | Except.error e => Except.error e
      | Except.ok (t, ds, ws) =>
        Except.ok (alt.transcript ++ t, alt.words.map wordDetail ++ ds,
          alt.words ++ ws)

/-- Environment of one `analyze_audio` call: outcome of credential/client
creation (`some e` = exception with message `e`), the exit status of the
ffmpeg command, the bytes read from the converted file, and the outcome of
the recognition request (`Except.error e` = any exception raised inside the
`try` block, whose message is `str(e)`; file-read failures are folded into
this case, which the source handles identically). -/
structure AnalyzeEnv where
  credsErr : Option Str
  ffmpegExit : Int
  audio : List Nat
  recognition : Except Str (List RecogResult)

/-- The dict returned by `analyze_audio`: either `{"error": msg}` or the full
result dict. -/
inductive AnalyzeRet where
  | err (msg : Str)
  | ok (main_text : Str) (details : Str) (audio_content : List Nat)
      (word_data : List Word) (alts : Str)
deriving DecidableEq

/-- Observable outcome of `analyze_audio`: the returned dict (or
`Except.error ()` for an uncaught exception), whether the temporary converted
file still exists on return, and whether `long_running_recognize` was
issued. -/
structure AnalyzeOut where
  ret : Except Unit AnalyzeRet
  tmpExists : Bool
  recognizeCalled : Bool

/-- Model of `analyze_audio(source_path)`.  The temporary converted file is created
(by `NamedTemporaryFile(delete=False)`) after the credential block and before
ffmpeg runs; the `finally` that removes it guards only the recognition `try`
block (lines 117-139), so the conversion-error return at line 114 does not
pass through it. -/
def analyze_audio (env : AnalyzeEnv) : AnalyzeOut :=
  match env.credsErr with
  | some e =>
    ⟨Except.ok (.err ("認証エラー: ".toList ++ e)), false, false⟩
  | none =>
    if env.ffmpegExit ≠ 0 then
      ⟨Except.ok (.err "ファイル変換エラー (FFmpeg未インストールの可能性)".toList),
        true, false⟩
    else
      match env.recognition with
      | Except.error e =>
        ⟨Except.ok (.err ("認識エラー: ".toList ++ e)), false, true⟩
      | Except.ok results =>
        if results.isEmpty then
          ⟨Except.ok (.err "音声認識不可(無音/ノイズ)".toList), false, true⟩
        else
          match assembleResults results with
          | Except.error _ => ⟨Except.error (), false, true⟩
          | Except.ok (t, ds, ws) =>
            ⟨Except.ok (.ok t (List.intercalate ", ".toList ds) env.audio ws []),
              false, true⟩

/-! ## The "Start Analysis" handler (src/app.py lines 456-570) -/

/-- Event trace of one button-click run, after `analyze_audio` returned a
dict `res`: which user-visible/service actions were performed. -/
structure PipelineOut where
  shownError : Bool
  generationCalled : Bool
  report : Option Str
  reportDisplayed : Bool
  summaryParsed : Bool
  saveAttempted : Bool
  extractionWarned : Bool
  downloadOffered : Bool
deriving DecidableEq

/-- The handler body from the `if "error" in res` check on (lines 475-570):
on an error dict, show the error and stop; otherwise generate the report,
display it, parse the summary, attempt the spreadsheet append exactly when
the extracted score is not the sentinel `"0"` (warning instead), and always
offer the download. -/
def run_pipeline (attempt : Str → Str → GenOutcome)
    (student_name nationality : Str) (res : AnalyzeRet) : PipelineOut :=
  match res with
  | .err _ =>
    { shownError := true, generationCalled := false, report := none,
      reportDisplayed := false, summaryParsed := false, saveAttempted := false,
      extractionWarned := false, downloadOffered := false }
  | .ok main_text details _audio _words alts =>
    let report := ask_gemini attempt student_name nationality main_text alts details
    let parsed := parse_summary report
    if parsed.score ≠ "0".toList then
      { shownError := false, generationCalled := true, report := some report,
        reportDisplayed := true, summaryParsed := true, saveAttempted := true,
        extractionWarned := false, downloadOffered := true }
    else
      { shownError := false, generationCalled := true, report := some report,
        reportDisplayed := true, summaryParsed := true, saveAttempted := false,
        extractionWarned := true, downloadOffered := true }

/-! ## Helper lemmas -/

theorem digitChar_isDigit (d : Nat) (h : d < 10) : (Nat.digitChar d).isDigit = true := by
  interval_cases d <;> decide

theorem natStrAux_mem : ∀ (fuel n : Nat) (acc : Str) (c : Char),
    c ∈ natStrAux fuel n acc → c ∈ acc ∨ c.isDigit = true := by
  intro fuel
  induction fuel with
  | zero => intro n acc c h; exact Or.inl h
  | succ f ih =>
    intro n acc c h
    simp only [natStrAux] at h
    by_cases hn : n < 10
    · rw [if_pos hn] at h
      rcases List.mem_cons.mp h with h | h
      · exact Or.inr (h ▸ digitChar_isDigit n hn)
      · exact Or.inl h
    · rw [if_neg hn] at h
      rcases ih _ _ _ h with h | h
      · rcases List.mem_cons.mp h with h | h
        · exact Or.inr (h ▸ digitChar_isDigit _ (Nat.mod_lt _ (by omega)))
        · exact Or.inl h
      · exact Or.inr h

theorem natStr_isDigit (n : Nat) (c : Char) (h : c ∈ natStr n) : c.isDigit = true := by
  rcases natStrAux_mem _ _ _ _ h with h | h
  · cases h
  · exact h

theorem intStr_mem (i : Int) (c : Char) (h : c ∈ intStr i) :
    c = '-' ∨ c.isDigit = true := by
  unfold intStr at h
  by_cases hi : i < 0
  · rw [if_pos hi] at h
    rcases List.mem_cons.mp h with h | h
    · exact Or.inl h
    · exact Or.inr (natStr_isDigit _ _ h)
  · rw [if_neg hi] at h
    exact Or.inr (natStr_isDigit _ _ h)

theorem fmtFixed1_mem (q : ℚ) (c : Char) (h : c ∈ fmtFixed1 q) :
    c = '-' ∨ c = '.' ∨ c.isDigit = true := by
  unfold fmtFixed1 at h
  by_cases ht : ratFloor (q * 10 + mkRat 1 2) < 0
  · rw [if_pos ht] at h
    rcases List.mem_cons.mp h with h | h
    · exact Or.inl h
    · rcases List.mem_append.mp h with h | h
      · exact Or.inr (Or.inr (natStr_isDigit _ _ h))
      · rcases List.mem_cons.mp h with h | h
        · exact Or.inr (Or.inl h)
        · exact Or.inr (Or.inr (natStr_isDigit _ _ h))
  · rw [if_neg ht] at h
    rcases List.mem_append.mp h with h | h
    · exact Or.inr (Or.inr (natStr_isDigit _ _ h))
    · rcases List.mem_cons.mp h with h | h
      · exact Or.inr (Or.inl h)
      · exact Or.inr (Or.inr (natStr_isDigit _ _ h))

theorem findDigitStart_spec : ∀ (s l : Str), findDigitStart s = some l →
    ∃ d t, l = d :: t ∧ pyIsDigit d = true := by
  intro s
  induction s with
  | nil => intro l h; cases h
  | cons c rest ih =>
    intro l h
    simp only [findDigitStart] at h
    by_cases hd : pyIsDigit c = true
    · rw [if_pos hd] at h
      exact ⟨c, rest, (Option.some_inj.mp h).symm, hd⟩
    · rw [if_neg hd] at h
      by_cases hn : c = '\n'
      · rw [if_pos hn] at h; cases h
      · rw [if_neg hn] at h; exact ih _ h

theorem findRatingStart_spec : ∀ (s : Str) (c : Char), findRatingStart s = some c →
    isRatingChar c = true := by
  intro s
  induction s with
  | nil => intro c h; cases h
  | cons a rest ih =>
    intro c h
    simp only [findRatingStart] at h
    by_cases ha : isRatingChar a = true
    · rw [if_pos ha] at h
      exact (Option.some_inj.mp h) ▸ ha
    · rw [if_neg ha] at h
      by_cases hn : a = '\n'
      · rw [if_pos hn] at h; cases h
      · rw [if_neg hn] at h; exact ih _ h

theorem searchScore_spec : ∀ (label s ds : Str), searchScore label s = some ds →
    ds ≠ [] ∧ ds.length ≤ 3 ∧ ∀ c ∈ ds, pyIsDigit c = true := by
  intro label s
  induction s with
  | nil => intro ds h; cases h
  | cons c rest ih =>
    intro ds h
    simp only [searchScore] at h
    by_cases hp : label.isPrefixOf (c :: rest) = true
    · rw [if_pos hp] at h
      cases hc : findColon (List.drop label.length (c :: rest)) with
      | none => simp only [hc] at h; exact ih _ h
      | some afterColon =>
        simp only [hc] at h
        cases hdg : findDigitStart afterColon with
        | none => simp only [hdg] at h; exact ih _ h
        | some l =>
          simp only [hdg] at h
          obtain ⟨d, tl, rfl, hd⟩ := findDigitStart_spec _ _ hdg
          have hds : ds = List.take 3 (List.takeWhile pyIsDigit (d :: tl)) :=
            (Option.some_inj.mp h).symm
          rw [List.takeWhile_cons_of_pos hd] at hds
          refine ⟨?_, ?_, ?_⟩
          · rw [hds]; simp
          · rw [hds]; exact (List.length_take_le _ _)
          · intro x hx
            rw [hds] at hx
            have hx' := List.take_subset _ _ hx
            rcases List.mem_cons.mp hx' with h' | h'
            · exact h' ▸ hd
            · exact List.mem_takeWhile_imp h'
    · rw [if_neg hp] at h
      exact ih _ h

theorem searchRating_spec : ∀ (label s : Str) (c : Char), searchRating label s = some c →
    isRatingChar c = true := by
  intro label s
  induction s with
  | nil => intro c h; cases h
  | cons a rest ih =>
    intro c h
    simp only [searchRating] at h
    by_cases hp : label.isPrefixOf (a :: rest) = true
    · rw [if_pos hp] at h
      cases hc : findColon (List.drop label.length (a :: rest)) with
      | none => simp only [hc] at h; exact ih _ h
      | some afterColon =>
        simp only [hc] at h
        cases hr : findRatingStart afterColon with
        | none => simp only [hr] at h; exact ih _ h
        | some r =>
          simp only [hr] at h
          exact (Option.some_inj.mp h) ▸ findRatingStart_spec _ _ hr
    · rw [if_neg hp] at h
      exact ih _ h

theorem searchScore_eq_none : ∀ (label s : Str), findIdx label s = none →
    searchScore label s = none := by
  intro label s
  induction s with
  | nil => intro _; rfl
  | cons c rest ih =>
    intro h
    simp only [findIdx] at h
    by_cases hp : label.isPrefixOf (c :: rest) = true
    · rw [if_pos hp] at h; cases h
    · rw [if_neg hp] at h
      simp only [searchScore]
      rw [if_neg hp]
      cases hfi : findIdx label rest with
      | none => exact ih hfi
      | some i => rw [hfi] at h; cases h

theorem genLoop_all_err (attempt : Str → Str → GenOutcome) (prompt m : Str) :
    ∀ (ms : List Str) (le : Option Str),
      (∀ m' ∈ ms, ∃ e', attempt m' prompt = GenOutcome.err e') →
      genLoop attempt prompt (ms ++ [m]) le =
        (match attempt m prompt with
         | .ok t => t
         | .err e => genFailMsg (some e)) := by
  intro ms
  induction ms with
  | nil =>
    intro le h
    cases ha : attempt m prompt with
    | ok t => simp [genLoop, ha]
    | err e => simp [genLoop, ha]
  | cons m' ms ih =>
    intro le h
    obtain ⟨e', he'⟩ := h m' (List.mem_cons_self m' ms)
    simp only [List.cons_append, genLoop, he']
    exact ih _ (fun x hx => h x (List.mem_cons_of_mem _ hx))

theorem assembleResults_words : ∀ (results : List RecogResult) (t : Str)
    (ds : List Str) (ws : List Word),
    assembleResults results = Except.ok (t, ds, ws) →
    ds = ws.map wordDetail ∧
    ws = (results.map fun r => (r.alternatives.headD ⟨[], []⟩).words).flatten := by
  intro results
  induction results with
  | nil =>
    intro t ds ws h
    simp only [assembleResults, Except.ok.injEq, Prod.mk.injEq] at h
    obtain ⟨h₁, h₂, h₃⟩ := h
    simp [← h₂, ← h₃]
  | cons r rest ih =>
    intro t ds ws h
    simp only [assembleResults] at h
    cases halts : r.alternatives with
    | nil => simp only [halts] at h; exact Except.noConfusion h
    | cons alt as =>
      simp only [halts] at h
      cases hrec : assembleResults rest with
      | error e => simp only [hrec] at h; exact Except.noConfusion h
      | ok triple =>
        obtain ⟨t', ds', ws'⟩ := triple
        simp only [hrec, Except.ok.injEq, Prod.mk.injEq] at h
        obtain ⟨h₁, hds, hws⟩ := h
        obtain ⟨ih₁, ih₂⟩ := ih t' ds' ws' hrec
        constructor
        · rw [← hds, ← hws, ih₁, List.map_append]
        · rw [← hws, ih₂]
          simp [List.map_cons, List.flatten_cons, halts, List.headD_cons]

/-! ## Claim theorems -/

/-- C1: The Report Generator Client never propagates an exception to its
caller.  For every prompt and every priority-ordered list of model
identifiers whose leading elements all raise: if the final candidate
succeeds, the fallback loop returns exactly its response text; if the final
candidate raises as well, the loop returns the formatted error string made
of the error indicator `❌ Gemini生成エラー（全モデルで失敗）: ` followed by
the message of the last exception — it never raises.  `ask_gemini` itself is this
loop run over `target_models` on the built prompt (and, being a total
function, propagates no exception). -/
theorem ask_gemini_fallback_and_swallow
    (attempt : Str → Str → GenOutcome) (prompt m t e : Str) (ms : List Str)
    (hall : ∀ m' ∈ ms, ∃ e', attempt m' prompt = GenOutcome.err e') :
    (attempt m prompt = GenOutcome.ok t →
      genLoop attempt prompt (ms ++ [m]) none = t) ∧
    (attempt m prompt = GenOutcome.err e →
      genLoop attempt prompt (ms ++ [m]) none =
        "❌ Gemini生成エラー（全モデルで失敗）: ".toList ++ e) ∧
    (∀ sn na text alts details,
      ask_gemini attempt sn na text alts details =
        genLoop attempt (build_prompt sn na text details) target_models none) := by
  refine ⟨?_, ?_, fun _ _ _ _ _ => rfl⟩
  · intro hok
    rw [genLoop_all_err attempt prompt m ms none hall, hok]
  · intro herr
    rw [genLoop_all_err attempt prompt m ms none hall, herr]
    rfl

/-- Witness for C1 at concrete inputs: one failing then one succeeding model
returns the success text; two failing models return the formatted error
string carrying the second (last) message. -/
theorem ask_gemini_fallback_and_swallow_witness :
    genLoop
      (fun m _ => if m = "m1".toList then GenOutcome.err "E1".toList
                  else GenOutcome.ok "OK".toList)
      "p".toList (["m1".toList] ++ ["m2".toList]) none = "OK".toList ∧
    genLoop
      (fun m _ => if m = "m1".toList then GenOutcome.err "E1".toList
                  else GenOutcome.err "E2".toList)
      "p".toList (["m1".toList] ++ ["m2".toList]) none =
        "❌ Gemini生成エラー（全モデルで失敗）: ".toList ++ "E2".toList := by
  constructor
  · exact (ask_gemini_fallback_and_swallow
      (fun m _ => if m = "m1".toList then GenOutcome.err "E1".toList
                  else GenOutcome.ok "OK".toList)
      "p".toList "m2".toList "OK".toList [] ["m1".toList]
      (by intro m' hm'; rw [List.mem_singleton] at hm'; subst hm';
          exact ⟨"E1".toList, rfl⟩)).1 rfl
  · exact (ask_gemini_fallback_and_swallow
      (fun m _ => if m = "m1".toList then GenOutcome.err "E1".toList
                  else GenOutcome.err "E2".toList)
      "p".toList "m2".toList [] "E2".toList ["m1".toList]
      (by intro m' hm'; rw [List.mem_singleton] at hm'; subst hm';
          exact ⟨"E1".toList, rfl⟩)).2.1 rfl

/-- C2 counterexample: on the transcoder-failure exit path (credentials fine,
ffmpeg exit status 1) `analyze_audio` returns the conversion-error dict while
the temporary converted file still exists — the claimed all-paths cleanup is
false, because the early `return` at line 114 precedes the `try/finally`
that removes the file. -/
theorem analyze_audio_tmpfile_claim_counterexample :
    (analyze_audio ⟨none, 1, [], Except.ok []⟩).ret =
      Except.ok (AnalyzeRet.err
        "ファイル変換エラー (FFmpeg未インストールの可能性)".toList) ∧
    (analyze_audio ⟨none, 1, [], Except.ok []⟩).tmpExists = true :=
  ⟨rfl, rfl⟩

/-- C2 (amended): the temporary converted file still exists when
`analyze_audio` returns exactly on the transcoder-failure path (credentials
loaded, ffmpeg exit status non-zero); on every other exit path — successful
recognition, recognition exception, empty result list, uncaught exception,
and the credential-failure path on which the file is never created — it is
gone. -/
theorem analyze_audio_tmpfile_cleanup (env : AnalyzeEnv) :
    (analyze_audio env).tmpExists = true ↔
      (env.credsErr = none ∧ env.ffmpegExit ≠ 0) := by
  obtain ⟨ce, fe, au, rec⟩ := env
  cases ce with
  | some e => simp [analyze_audio]
  | none =>
    by_cases hf : fe = 0
    · cases rec with
      | error e => simp [analyze_audio, hf]
      | ok results =>
        by_cases he : results.isEmpty
        · simp [analyze_audio, hf, he]
        · cases h : assembleResults results with
          | error u => simp [analyze_audio, hf, he, h]
          | ok triple =>
            obtain ⟨t, ds, ws⟩ := triple
            simp [analyze_audio, hf, he, h]
    · simp [analyze_audio, hf]

/-- C3: whenever the credential block succeeds and the ffmpeg command exits
with a non-zero status, `analyze_audio` returns the conversion-error dict and
the recognition request is never issued. -/
theorem analyze_audio_conversion_error (env : AnalyzeEnv)
    (h1 : env.credsErr = none) (h2 : env.ffmpegExit ≠ 0) :
    (analyze_audio env).ret =
      Except.ok (AnalyzeRet.err
        "ファイル変換エラー (FFmpeg未インストールの可能性)".toList) ∧
    (analyze_audio env).recognizeCalled = false := by
  simp [analyze_audio, h1, h2]

/-- Witness for C3 with ffmpeg exit status 1. -/
theorem analyze_audio_conversion_error_witness :
    (analyze_audio ⟨none, 1, [], Except.ok []⟩).ret =
      Except.ok (AnalyzeRet.err
        "ファイル変換エラー (FFmpeg未インストールの可能性)".toList) ∧
    (analyze_audio ⟨none, 1, [], Except.ok []⟩).recognizeCalled = false :=
  analyze_audio_conversion_error ⟨none, 1, [], Except.ok []⟩ rfl (by decide)

/-- C4: when the recognition response has an empty result list,
`analyze_audio` returns the "recognition not possible" error dict, and on
such an error dict the Start-Analysis handler performs neither report
generation nor summary extraction nor the spreadsheet append. -/
theorem recognition_empty_aborts (env : AnalyzeEnv)
    (attempt : Str → Str → GenOutcome) (sn na : Str)
    (h1 : env.credsErr = none) (h2 : env.ffmpegExit = 0)
    (h3 : env.recognition = Except.ok []) :
    (analyze_audio env).ret =
      Except.ok (AnalyzeRet.err "音声認識不可(無音/ノイズ)".toList) ∧
    (run_pipeline attempt sn na
      (AnalyzeRet.err "音声認識不可(無音/ノイズ)".toList)).generationCalled = false ∧
    (run_pipeline attempt sn na
      (AnalyzeRet.err "音声認識不可(無音/ノイズ)".toList)).summaryParsed = false ∧
    (run_pipeline attempt sn na
      (AnalyzeRet.err "音声認識不可(無音/ノイズ)".toList)).saveAttempted = false := by
  refine ⟨?_, rfl, rfl, rfl⟩
  simp [analyze_audio, h1, h2, h3]

/-- Witness for C4 at a concrete environment with an empty result list. -/
theorem recognition_empty_aborts_witness :
    (analyze_audio ⟨none, 0, [], Except.ok []⟩).ret =
      Except.ok (AnalyzeRet.err "音声認識不可(無音/ノイズ)".toList) ∧
    (run_pipeline (fun _ _ => GenOutcome.ok []) [] []
      (AnalyzeRet.err "音声認識不可(無音/ノイズ)".toList)).generationCalled = false ∧
    (run_pipeline (fun _ _ => GenOutcome.ok []) [] []
      (AnalyzeRet.err "音声認識不可(無音/ノイズ)".toList)).summaryParsed = false ∧
    (run_pipeline (fun _ _ => GenOutcome.ok []) [] []
      (AnalyzeRet.err "音声認識不可(無音/ノイズ)".toList)).saveAttempted = false :=
  recognition_empty_aborts ⟨none, 0, [], Except.ok []⟩
    (fun _ _ => GenOutcome.ok []) [] [] rfl rfl rfl

/-- C5: `parse_summary` is total (it is a function, so no exception is
raised); on a report containing the literal score line
`**総合音声スコア**： 87 / 100` the extracted score is `"87"`, and on every
report in which the label `スコア` does not occur at all (in the cleaned
text) the extracted score is the sentinel `"0"`. -/
theorem parse_summary_score_cases :
    (parse_summary
      "### 【総合評価サマリー】\n* **総合音声スコア**： 87 / 100\n* **明瞭度**： B\n---".toList).score
      = "87".toList ∧
    ∀ r : Str, findIdx "スコア".toList (cleanText r) = none →
      (parse_summary r).score = "0".toList := by
  refine ⟨rfl, fun r h => ?_⟩
  have hn : searchScore "スコア".toList (cleanText r) = none :=
    searchScore_eq_none _ _ h
  simp only [parse_summary]
  rw [hn]

/-- Witness for the C5 sentinel case on a label-free report. -/
theorem parse_summary_score_cases_witness :
    (parse_summary "こんにちは".toList).score = "0".toList :=
  parse_summary_score_cases.2 "こんにちは".toList rfl

/-- C6: on every successful-analysis run, whatever the generation outcome,
the report is displayed and offered for download; the spreadsheet append is
attempted exactly when the extracted score differs from the sentinel `"0"`,
and the extraction-failure warning is shown exactly otherwise. -/
theorem report_always_shown_logging_gated (attempt : Str → Str → GenOutcome)
    (sn na mt det alts : Str) (au : List Nat) (wd : List Word) :
    (run_pipeline attempt sn na (AnalyzeRet.ok mt det au wd alts)).reportDisplayed = true ∧
    (run_pipeline attempt sn na (AnalyzeRet.ok mt det au wd alts)).downloadOffered = true ∧
    ((run_pipeline attempt sn na (AnalyzeRet.ok mt det au wd alts)).saveAttempted = true ↔
      (parse_summary (ask_gemini attempt sn na mt alts det)).score ≠ "0".toList) ∧
    ((run_pipeline attempt sn na (AnalyzeRet.ok mt det au wd alts)).extractionWarned = true ↔
      (parse_summary (ask_gemini attempt sn na mt alts det)).score = "0".toList) := by
  by_cases h : (parse_summary (ask_gemini attempt sn na mt alts det)).score = ['0']
  · simp [run_pipeline, h]
  · simp [run_pipeline, h]

/-- C7: the detail entry of a word contains the warning marker `⚠` exactly when
its confidence is strictly below the 0.8 threshold (for any word text that
does not itself contain the marker character), and the structured word list
assembled from the response retains every word of every segment regardless
of confidence, with the detail entries in one-to-one correspondence. -/
theorem low_confidence_marker :
    (∀ w : Word, '⚠' ∉ w.word →
      (('⚠' ∈ wordDetail w) ↔ w.conf < mkRat 4 5)) ∧
    (∀ (results : List RecogResult) (t : Str) (ds : List Str) (ws : List Word),
      assembleResults results = Except.ok (t, ds, ws) →
      ds = ws.map wordDetail ∧
      ws = (results.map fun r => (r.alternatives.headD ⟨[], []⟩).words).flatten) := by
  constructor
  · intro w hw
    constructor
    · intro hmem
      by_cases hc : w.conf < mkRat 4 5
      · exact hc
      · exfalso
        unfold wordDetail at hmem
        rw [if_neg hc] at hmem
        simp only [List.mem_append, List.mem_cons, List.not_mem_nil, or_false] at hmem
        rcases hmem with h | h | h | h | h | h | h | h
        · exact hw h
        · exact absurd h (by decide)
        · rcases intStr_mem _ _ h with h | h <;> exact absurd h (by decide)
        · exact absurd h (by decide)
        · exact absurd h (by decide)
        · rcases fmtFixed1_mem _ _ h with h | h | h <;> exact absurd h (by decide)
        · exact absurd h (by decide)
        · exact absurd h (by decide)
    · intro hc
      unfold wordDetail
      refine List.mem_append.mpr (Or.inr ?_)
      refine List.mem_cons.mpr (Or.inr ?_)
      refine List.mem_append.mpr (Or.inr ?_)
      refine List.mem_cons.mpr (Or.inr ?_)
      refine List.mem_cons.mpr (Or.inr ?_)
      refine List.mem_append.mpr (Or.inr ?_)
      refine List.mem_cons.mpr (Or.inr ?_)
      refine List.mem_cons.mpr (Or.inr ?_)
      rw [if_pos hc]
      decide
  · exact assembleResults_words

/-- Witness for C7: a confidence-0.9 word gets no marker, a confidence-0.7
word does, and a one-segment one-word response keeps its word in the
structured list with its detail entry. -/
theorem low_confidence_marker_witness :
    '⚠' ∉ wordDetail ⟨"あ".toList, mkRat 9 10, 0⟩ ∧
    '⚠' ∈ wordDetail ⟨"あ".toList, mkRat 7 10, 0⟩ ∧
    ([wordDetail ⟨"あ".toList, mkRat 9 10, 0⟩] =
      ([⟨"あ".toList, mkRat 9 10, 0⟩] : List Word).map wordDetail ∧
     ([⟨"あ".toList, mkRat 9 10, 0⟩] : List Word) =
      (([⟨[⟨"あい".toList, [⟨"あ".toList, mkRat 9 10, 0⟩]⟩]⟩] : List RecogResult).map
        fun r => (r.alternatives.headD ⟨[], []⟩).words).flatten) := by
  refine ⟨?_, ?_, low_confidence_marker.2
    [⟨[⟨"あい".toList, [⟨"あ".toList, mkRat 9 10, 0⟩]⟩]⟩] "あい".toList
    [wordDetail ⟨"あ".toList, mkRat 9 10, 0⟩] [⟨"あ".toList, mkRat 9 10, 0⟩] rfl⟩
  · intro hmem
    exact absurd ((low_confidence_marker.1 ⟨"あ".toList, mkRat 9 10, 0⟩
      (by decide)).mp hmem) (by decide)
  · exact (low_confidence_marker.1 ⟨"あ".toList, mkRat 7 10, 0⟩
      (by decide)).mpr (by decide)

/-- C8 counterexample: on the report `スコア: 999` the extracted score is the
three-digit string `"999"`, and on the report `スコア：８７` it is the
full-width-digit string `"８７"` (the class `\d` matches every Unicode
decimal digit); neither is the decimal representation of any integer between
0 and 100 (`natStr` is the model of Python `str(int)`), so the claimed 0–100
score domain is false. -/
theorem parse_summary_domains_counterexample :
    (parse_summary "スコア: 999".toList).score = "999".toList ∧
    ((List.range 101).all fun n => natStr n != "999".toList) = true ∧
    (parse_summary "スコア：８７".toList).score = "８７".toList ∧
    ((List.range 101).all fun n => natStr n != "８７".toList) = true :=
  ⟨rfl, by decide, rfl, by decide⟩

/-- C8 (amended): for every report text the extracted score is a non-empty
string of at most three Unicode decimal digits (the class `\d` also matches
non-ASCII digits such as the full-width `８`, and `\d{1,3}` enforces no
0–100 bound and no canonical form; `"0"` doubles as the not-found sentinel),
and each of the clarity and naturalness ratings is one of `S`, `A`, `B`, `C`
or the sentinel `-`. -/
theorem parse_summary_field_domains (r : Str) :
    ((parse_summary r).score ≠ [] ∧ (parse_summary r).score.length ≤ 3 ∧
      ∀ c ∈ (parse_summary r).score, pyIsDigit c = true) ∧
    (parse_summary r).clarity ∈ [['S'], ['A'], ['B'], ['C'], ['-']] ∧
    (parse_summary r).naturalness ∈ [['S'], ['A'], ['B'], ['C'], ['-']] := by
  refine ⟨?_, ?_, ?_⟩
  · simp only [parse_summary]
    cases h : searchScore "スコア".toList (cleanText r) with
    | none => exact ⟨by decide, by decide, by decide⟩
    | some ds => exact searchScore_spec _ _ _ h
  · simp only [parse_summary]
    cases h : searchRating "明瞭度".toList (cleanText r) with
    | none => decide
    | some c =>
      have hc := searchRating_spec _ _ _ h
      simp only [isRatingChar, Bool.or_eq_true, decide_eq_true_eq] at hc
      rcases hc with ((((((h1 | h1) | h1) | h1) | h1) | h1) | h1) | h1 <;> subst h1 <;> decide
  · simp only [parse_summary]
    cases h : searchRating "日本語らしさ".toList (cleanText r) with
    | none => decide
    | some c =>
      have hc := searchRating_spec _ _ _ h
      simp only [isRatingChar, Bool.or_eq_true, decide_eq_true_eq] at hc
      rcases hc with ((((((h1 | h1) | h1) | h1) | h1) | h1) | h1) | h1 <;> subst h1 <;> decide

/-- C9: the Summary Extractor is a pure function — it is modelled as a total
function of the report text alone (the source touches no external state), so
two runs on equal inputs produce identical results. -/
theorem parse_summary_deterministic (r₁ r₂ : Str) (h : r₁ = r₂) :
    parse_summary r₁ = parse_summary r₂ := by
  rw [h]

/-- Witness for C9 on a concrete report. -/
theorem parse_summary_deterministic_witness :
    parse_summary "レポート".toList = parse_summary "レポート".toList :=
  parse_summary_deterministic "レポート".toList "レポート".toList rfl

/-- C10: when the score label is present and the first captured number is
literally `0`, `parse_summary` returns the same score string `"0"` as on a
report with no score label at all, so the handler skips the spreadsheet
append and shows the extraction-failure warning — a genuine zero score is
indistinguishable from extraction failure. -/
theorem zero_score_indistinguishable (report sn na mt det alts : Str)
    (au : List Nat) (wd : List Word)
    (h : searchScore "スコア".toList (cleanText report) = some "0".toList) :
    (parse_summary report).score = "0".toList ∧
    (∀ r2 : Str, findIdx "スコア".toList (cleanText r2) = none →
      (parse_summary report).score = (parse_summary r2).score) ∧
    (run_pipeline (fun _ _ => GenOutcome.ok report) sn na
      (AnalyzeRet.ok mt det au wd alts)).saveAttempted = false ∧
    (run_pipeline (fun _ _ => GenOutcome.ok report) sn na
      (AnalyzeRet.ok mt det au wd alts)).extractionWarned = true := by
  have hs : (parse_summary report).score = "0".toList := by
    simp only [parse_summary]
    rw [h]
  have hrep : ask_gemini (fun _ _ => GenOutcome.ok report) sn na mt alts det
      = report := rfl
  have hs' : (parse_summary report).score = ['0'] := hs
  refine ⟨hs, fun r2 h2 => ?_, ?_, ?_⟩
  · have hn2 : searchScore "スコア".toList (cleanText r2) = none :=
      searchScore_eq_none _ _ h2
    rw [hs]
    simp only [parse_summary]
    rw [hn2]
  · simp [run_pipeline, hrep, hs']
  · simp [run_pipeline, hrep, hs']

/-- Witness for C10: a report whose score line reads `0 / 100` yields score
`"0"`, equal to the score of a label-free report, and the handler run on it
skips the append and warns. -/
theorem zero_score_indistinguishable_witness :
    (parse_summary "**総合音声スコア**： 0 / 100".toList).score = "0".toList ∧
    (parse_summary "**総合音声スコア**： 0 / 100".toList).score =
      (parse_summary "詳細".toList).score ∧
    (run_pipeline (fun _ _ => GenOutcome.ok "**総合音声スコア**： 0 / 100".toList)
      [] [] (AnalyzeRet.ok [] [] [] [] [])).saveAttempted = false ∧
    (run_pipeline (fun _ _ => GenOutcome.ok "**総合音声スコア**： 0 / 100".toList)
      [] [] (AnalyzeRet.ok [] [] [] [] [])).extractionWarned = true :=
  ⟨(zero_score_indistinguishable "**総合音声スコア**： 0 / 100".toList
      [] [] [] [] [] [] [] rfl).1,
   (zero_score_indistinguishable "**総合音声スコア**： 0 / 100".toList
      [] [] [] [] [] [] [] rfl).2.1 "詳細".toList rfl,
   (zero_score_indistinguishable "**総合音声スコア**： 0 / 100".toList
      [] [] [] [] [] [] [] rfl).2.2.1,
   (zero_score_indistinguishable "**総合音声スコア**： 0 / 100".toList
      [] [] [] [] [] [] [] rfl).2.2.2⟩

end SpeechApp
